import Mathlib

/-!
Verification of the Gravity scene-graph library (`src/gravity/inc/parameter.h`,
`src/gravity/inc/sg.h`) against its natural-language specification.

The C++ code is shallowly embedded:

* `Gravity.Val` models the erased payload stored by a `Holder<T>`; `Gravity.Ty`
  models `std::type_index` of the decayed type, and `Gravity.CType` models a
  C++ type expression with cv/ref qualifiers, with `CType.decay` playing the
  role of `std::decay`.
* `Gravity.Parameter` models `Gravity::Parameter` compiled with
  `ENABLE_TYPE_LOCK` and `ENABLE_TYPE_CHECK` defined (the configuration in
  which the optional lock/check semantics described by the specification
  exist): the `Placeholder*` member is `Option Val` (null pointer = `none`,
  `Holder<T>{v}` = `some v`), the `bool m_type_lock` member is a `Bool`.
* A second, heap-explicit model (`PHeap`, `ParamH`) keeps the `Placeholder`
  allocations visible in order to verify deep-copy independence of clones.
* `Gravity.SceneGraph` models `Gravity::SceneGraph` instantiated at
  `DefaultSceneGraph` (`Key` = string, `NodeType` = unsigned integer).
  Node pointers are modelled by handles allocated from a fresh counter
  (each live `Node*` is a distinct address).  Observer callbacks are opaque:
  a `FilteredCallback` keeps the identity of the wrapped `std::function` and
  its filter set, and dispatch is modelled by the list of invocation events
  it produces, in order.
-/

namespace Gravity

/-- Erased payload values that a `Holder<T>` can store.  Floating-point
values are carried by their representation (`vfloat`): the container never
computes with the payload, it only stores, clones and returns it. -/
inductive Val : Type where
  | vint : Int → Val
  | vfloat : Int → Val
  | vseq : List Int → Val
  | vstr : String → Val
deriving DecidableEq, Repr

/-- The `std::type_index` of a decayed type, as compared by the lock/check
logic in `parameter.h`. -/
inductive Ty : Type where
  | tint | tfloat | tseq | tstr
deriving DecidableEq, Repr

/-- The type tag of a stored value (`typeid(T)` of the `Holder<T>` holding it). -/
def Val.ty : Val → Ty
  | .vint _ => .tint
  | .vfloat _ => .tfloat
  | .vseq _ => .tseq
  | .vstr _ => .tstr

/-- Reference qualifier of a C++ type expression. -/
inductive CRef : Type where
  | plain | lref | rref
deriving DecidableEq, Repr

/-- A C++ type expression `T`, `const T`, `T&&`, `const T&`, ... as passed to
`Parameter::As<T>`: a base type together with cv/ref qualifiers. -/
structure CType : Type where
  base : Ty
  isConst : Bool
  ref : CRef
deriving DecidableEq, Repr

/-- `std::decay<T>::type`: strips reference and cv qualifiers, leaving the
base type. -/
def CType.decay (t : CType) : Ty := t.base

/-- Errors surfaced by the library.  `typeLockViolation` and `typeMismatch`
and `emptyValue` are all raised as `std::bad_cast` in the source, split here
by raising site exactly as the specification's taxonomy names them;
`keyNotFound` is the `std::runtime_error` thrown by the Node attribute
lookups; `nodeNotFound` is the `std::runtime_error` thrown by
`SceneGraph::DeleteNode`. -/
inductive Err : Type where
  | typeLockViolation
  | typeMismatch
  | emptyValue
  | keyNotFound
  | nodeNotFound
deriving DecidableEq, Repr

/-- `Gravity::Parameter` (with `ENABLE_TYPE_LOCK`): an optional erased
payload behind `Placeholder* m_placeholder` and the `bool m_type_lock` flag. -/
structure Parameter : Type where
  m_placeholder : Option Val
  m_type_lock : Bool
deriving DecidableEq, Repr

/-- Default constructor `Parameter()`: null placeholder, lock off. -/
def Parameter.empty : Parameter := ⟨none, false⟩

/-- Value constructor `Parameter(T&& val)`: stores the value in a fresh
`Holder`, lock off. -/
def Parameter.ofVal (v : Val) : Parameter := ⟨some v, false⟩

/-- The `std::type_index` of the held value, when one is held
(`m_placeholder->GetTypeIndex()`). -/
def Parameter.heldTy (p : Parameter) : Option Ty := p.m_placeholder.map Val.ty

/-- Copy constructor `Parameter(Parameter const& rhs)`: clones the
placeholder (or keeps null) and copies `rhs.m_type_lock`. -/
def Parameter.copyCtor (rhs : Parameter) : Parameter :=
  ⟨rhs.m_placeholder, rhs.m_type_lock⟩

/-- Value assignment `Parameter::operator=(T&& val)`: throws `std::bad_cast`
when the lock is on, a value is held and the incoming decayed type differs
from the held one; otherwise swaps in a fresh holder for the new value.
`m_type_lock` is not touched. -/
def Parameter.assign (p : Parameter) (v : Val) : Except Err Parameter :=
  if p.m_type_lock ∧ p.m_placeholder.isSome ∧ p.heldTy ≠ some v.ty then
    .error .typeLockViolation
  else
    .ok ⟨some v, p.m_type_lock⟩

/-- Copy assignment `Parameter::operator=(Parameter const& rhs)`: throws
`std::bad_cast` when (the lock is on, both sides hold values and the held
types differ) or (the target holds a value and the source is empty);
otherwise swaps in a clone of the source placeholder (null stays null).
`m_type_lock` is not touched. -/
def Parameter.copyAssign (p rhs : Parameter) : Except Err Parameter :=
  if (p.m_type_lock ∧ p.m_placeholder.isSome ∧ rhs.m_placeholder.isSome ∧
        rhs.heldTy ≠ p.heldTy)
      ∨ (p.m_placeholder.isSome ∧ rhs.m_placeholder.isNone) then
    .error .typeLockViolation
  else
    .ok ⟨rhs.m_placeholder, p.m_type_lock⟩

/-- `Parameter::As<T>` (with `ENABLE_TYPE_CHECK`): throws `std::bad_cast`
when nothing is held or when the held type differs from `std::decay<T>`;
otherwise returns the held value. -/
def Parameter.As (p : Parameter) (t : CType) : Except Err Val :=
  match p.m_placeholder with
  | none => .error .emptyValue
  | some v => if v.ty = t.decay then .ok v else .error .typeMismatch

/-- `Parameter::SetTypeLock`. -/
def Parameter.setTypeLock (p : Parameter) (b : Bool) : Parameter :=
  ⟨p.m_placeholder, b⟩

/-! ### Heap-explicit model of `Placeholder` allocation

To verify that copy construction yields an *independent* deep copy
(`Holder<T>::Clone` does `new Holder<T>(m_value)`), the allocations are made
explicit: a `PHeap` is the set of live `Holder` objects, addressed by index,
and a `ParamH` is a `Parameter` whose `m_placeholder` is an address into the
heap instead of an inlined value.  `new` allocates a fresh cell (distinct
from every existing address). -/

/-- The heap of `Holder` objects; an address is an index into `cells`. -/
structure PHeap : Type where
  cells : List Val
deriving DecidableEq, Repr

/-- `new Holder<T>(v)`: allocate a fresh cell holding `v`, return its address. -/
def PHeap.alloc (hp : PHeap) (v : Val) : PHeap × Nat :=
  (⟨hp.cells ++ [v]⟩, hp.cells.length)

/-- Dereference an address (the `m_value` of the `Holder` living there). -/
def PHeap.get (hp : PHeap) (a : Nat) : Option Val := hp.cells[a]?

/-- Overwrite the `m_value` of the `Holder` at address `a` in place. -/
def PHeap.put (hp : PHeap) (a : Nat) (v : Val) : PHeap := ⟨hp.cells.set a v⟩

/-- `Gravity::Parameter` with its `Placeholder*` kept as a heap address. -/
structure ParamH : Type where
  m_placeholder : Option Nat
  m_type_lock : Bool
deriving DecidableEq, Repr

/-- Copy constructor `Parameter(Parameter const& rhs)`, heap model: when
`rhs` holds a placeholder, `rhs.m_placeholder->Clone()` allocates a fresh
`Holder` with a copy of the value; the lock flag is copied. -/
def ParamH.copyCtor (hp : PHeap) (rhs : ParamH) : PHeap × ParamH :=
  match rhs.m_placeholder with
  | none => (hp, ⟨none, rhs.m_type_lock⟩)
  | some a =>
    match hp.get a with
    | none => (hp, ⟨none, rhs.m_type_lock⟩)
    | some v =>
      let res := hp.alloc v
      (res.1, ⟨some res.2, rhs.m_type_lock⟩)

/-- Read the held value of a parameter through its placeholder pointer. -/
def ParamH.read (hp : PHeap) (p : ParamH) : Option Val :=
  p.m_placeholder.bind hp.get

/-- Mutate the held value in place through the reference `As<T>` returns
(what `Node::ModifyValue`'s mutator does).  No placeholder: no cell changes. -/
def ParamH.mutate (hp : PHeap) (p : ParamH) (f : Val → Val) : PHeap :=
  match p.m_placeholder with
  | none => hp
  | some a =>
    match hp.get a with
    | none => hp
    | some v => hp.put a (f v)

/-! ### The scene graph (`sg.h`), at the `DefaultSceneGraph` instantiation
(`Key` = `String`, `NodeType` = unsigned integer modelled by `Nat`). -/

/-- A scene-graph node: its immutable type tag and its attribute map
(`std::map<Key, Parameter> m_paramset`, modelled as an association list with
distinct keys). -/
structure Node : Type where
  m_type : Nat
  m_paramset : List (String × Parameter)
deriving DecidableEq, Repr

/-- `m_paramset.find(key)`: first entry with the given key, if any. -/
def findParam : List (String × Parameter) → String → Option Parameter
  | [], _ => none
  | (k, p) :: rest, key => if k = key then some p else findParam rest key

/-- `m_paramset.find(key)` on the attribute map. -/
def Node.find (n : Node) (key : String) : Option Parameter :=
  findParam n.m_paramset key

/-- Write back through the iterator returned by `find`: replace the mapped
parameter of `key`, leaving every other entry untouched. -/
def setAssoc : List (String × Parameter) → String → Parameter →
    List (String × Parameter)
  | [], _, _ => []
  | (k, p) :: rest, key, q =>
    if k = key then (k, q) :: rest else (k, p) :: setAssoc rest key q

/-- A registered observer: the identity of the wrapped `std::function`
together with its immutable filter set (`std::set<NodeType> m_filter`,
modelled by membership in a list). -/
structure FilteredCallback : Type where
  id : Nat
  m_filter : List Nat
deriving DecidableEq, Repr

/-- `FilteredCallback::operator()`: the wrapped function runs iff the filter
set is empty or the node's type is contained in it. -/
def FilteredCallback.matches (cb : FilteredCallback) (t : Nat) : Bool :=
  cb.m_filter.isEmpty || cb.m_filter.contains t

/-- One observable callback invocation: which wrapped function ran, for
which node handle (and key, for parameter-change events). -/
inductive Event : Type where
  | createEv (cb : Nat) (h : Nat)
  | deleteEv (cb : Nat) (h : Nat)
  | changeEv (cb : Nat) (h : Nat) (key : String)
deriving DecidableEq, Repr

/-- Dispatch over one callback registry: walk the registry in registration
order; each `FilteredCallback` runs its wrapped function iff its filter
matches, producing one invocation event. -/
def dispatch (reg : List FilteredCallback) (t : Nat) (mk : Nat → Event) :
    List Event :=
  reg.filterMap (fun cb => if cb.matches t then some (mk cb.id) else none)

/-- `Gravity::SceneGraph`: the live-node collection (`m_nodes`, keyed here by
handle; a handle models a `Node*`, allocated fresh from `next` so distinct
live nodes have distinct addresses), the parameter factory, and the three
callback registries (`std::list`, appended in registration order, with
`nextCb` supplying the identity of each registered function). -/
structure SceneGraph : Type where
  m_nodes : List (Nat × Node)
  next : Nat
  m_param_factory : Nat → List (String × Parameter)
  m_cb_create : List FilteredCallback
  m_cb_delete : List FilteredCallback
  m_cb_change : List FilteredCallback
  nextCb : Nat

/-- `SceneGraph(ParameterFactory*)`: empty scene, empty registries. -/
def SceneGraph.mk0 (factory : Nat → List (String × Parameter)) : SceneGraph :=
  ⟨[], 0, factory, [], [], [], 0⟩

/-- `FireOnNodeCreate`: run every create-registry callback on the node. -/
def SceneGraph.fireOnNodeCreate (g : SceneGraph) (t : Nat) (h : Nat) :
    List Event :=
  dispatch g.m_cb_create t (fun i => .createEv i h)

/-- `FireOnNodeDelete`: run every delete-registry callback on the node. -/
def SceneGraph.fireOnNodeDelete (g : SceneGraph) (t : Nat) (h : Nat) :
    List Event :=
  dispatch g.m_cb_delete t (fun i => .deleteEv i h)

/-- `FireOnNodeParameterChange`: run every change-registry callback on the
node and key. -/
def SceneGraph.fireOnNodeParameterChange (g : SceneGraph) (t : Nat) (h : Nat)
    (key : String) : List Event :=
  dispatch g.m_cb_change t (fun i => .changeEv i h key)

/-- `SceneGraph::CreateNode`: construct the node with the factory's
parameter set, emplace it into the scene, fire the create callbacks, return
the handle. -/
def SceneGraph.createNode (g : SceneGraph) (t : Nat) :
    SceneGraph × Nat × List Event :=
  let node : Node := ⟨t, g.m_param_factory t⟩
  let h := g.next
  let g1 : SceneGraph :=
    { g with m_nodes := g.m_nodes ++ [(h, node)], next := g.next + 1 }
  (g1, h, g1.fireOnNodeCreate t h)

/-- Remove the node owned under handle `h` from the collection (the
`m_nodes.erase(iter)` step, which destroys the node). -/
def eraseKey : List (Nat × Node) → Nat → List (Nat × Node)
  | [], _ => []
  | (k, n) :: rest, h => if k = h then rest else (k, n) :: eraseKey rest h

/-- The `std::find_if` over `m_nodes` comparing stored pointers with the
handle: first entry owned under `h`, if any. -/
def findNode : List (Nat × Node) → Nat → Option Node
  | [], _ => none
  | (k, n) :: rest, h => if k = h then some n else findNode rest h

/-- `SceneGraph::DeleteNode`: look the handle up in the scene; throw if it
is not there; otherwise fire the delete callbacks (on the scene that still
contains the node), then erase and destroy the node. -/
def SceneGraph.deleteNode (g : SceneGraph) (h : Nat) :
    Except Err (SceneGraph × List Event) :=
  match findNode g.m_nodes h with
  | none => .error .nodeNotFound
  | some node =>
    let evs := g.fireOnNodeDelete node.m_type h
    .ok ({ g with m_nodes := eraseKey g.m_nodes h }, evs)

/-- `RegisterOnNodeCreateCallback`: append to the create registry. -/
def SceneGraph.registerOnNodeCreate (g : SceneGraph) (filter : List Nat) :
    SceneGraph :=
  { g with m_cb_create := g.m_cb_create ++ [⟨g.nextCb, filter⟩],
           nextCb := g.nextCb + 1 }

/-- `RegisterOnNodeDeleteCallback`: append to the delete registry. -/
def SceneGraph.registerOnNodeDelete (g : SceneGraph) (filter : List Nat) :
    SceneGraph :=
  { g with m_cb_delete := g.m_cb_delete ++ [⟨g.nextCb, filter⟩],
           nextCb := g.nextCb + 1 }

/-- `RegisterOnNodeParameterChangeCallback`: append to the change registry. -/
def SceneGraph.registerOnNodeChange (g : SceneGraph) (filter : List Nat) :
    SceneGraph :=
  { g with m_cb_change := g.m_cb_change ++ [⟨g.nextCb, filter⟩],
           nextCb := g.nextCb + 1 }

/-- `Node::SetValue` on the node itself: find the key (throw if absent),
assign the value into the found container (which may throw), leaving the
rest of the map untouched.  The change notification is fired by the owning
graph, see `SceneGraph.setValueVia`. -/
def Node.setValue (n : Node) (key : String) (v : Val) : Except Err Node :=
  match n.find key with
  | none => .error .keyNotFound
  | some p =>
    (p.assign v).map (fun p2 => ⟨n.m_type, setAssoc n.m_paramset key p2⟩)

/-- `Node::ModifyValue` on the node itself: find the key (throw if absent),
take the `As<T>` reference (which may throw), run the mutator on it in
place.  C++ mutators act through a `T&`, so `f` maps a payload to a payload
of the same erased type. -/
def Node.modifyValue (n : Node) (key : String) (t : CType) (f : Val → Val) :
    Except Err Node :=
  match n.find key with
  | none => .error .keyNotFound
  | some p =>
    (p.As t).map (fun v =>
      ⟨n.m_type, setAssoc n.m_paramset key ⟨some (f v), p.m_type_lock⟩⟩)

/-- `Node::GetValue` on the node itself: find the key (throw if absent),
delegate to the container's `As<T>`. -/
def Node.getValue (n : Node) (key : String) (t : CType) : Except Err Val :=
  match n.find key with
  | none => .error .keyNotFound
  | some p => p.As t

/-- Write an updated node back into the scene under its handle (in C++ the
node mutates in place; in the state-passing model the collection entry for
`h` is replaced, every other entry untouched). -/
def setNodeAssoc : List (Nat × Node) → Nat → Node → List (Nat × Node)
  | [], _, _ => []
  | (k, n) :: rest, h, n2 =>
    if k = h then (k, n2) :: rest else (k, n) :: setNodeAssoc rest h n2

/-- A client call `node->SetValue(key, v)` addressed through handle `h`.
`Node::SetValue` performs no liveness check: when `h` is no longer in the
scene the call dereferences a destroyed `Node`, for which the code defines
no result — modelled as `none`.  On a live node, the assignment either
succeeds and `FireOnNodeParameterChange` runs once, or throws before any
mutation and before any notification. -/
def SceneGraph.setValueVia (g : SceneGraph) (h : Nat) (key : String)
    (v : Val) : Option (Except Err (SceneGraph × List Event)) :=
  match findNode g.m_nodes h with
  | none => none
  | some node =>
    some ((node.setValue key v).map (fun n2 =>
      ({ g with m_nodes := setNodeAssoc g.m_nodes h n2 },
       g.fireOnNodeParameterChange n2.m_type h key)))

/-- A client call `node->ModifyValue(key, f)` addressed through handle `h`
(same liveness caveat as `setValueVia`). -/
def SceneGraph.modifyValueVia (g : SceneGraph) (h : Nat) (key : String)
    (t : CType) (f : Val → Val) :
    Option (Except Err (SceneGraph × List Event)) :=
  match findNode g.m_nodes h with
  | none => none
  | some node =>
    some ((node.modifyValue key t f).map (fun n2 =>
      ({ g with m_nodes := setNodeAssoc g.m_nodes h n2 },
       g.fireOnNodeParameterChange n2.m_type h key)))

/-- A client call `node->GetValue(key)` addressed through handle `h`
(same liveness caveat as `setValueVia`). -/
def SceneGraph.getValueVia (g : SceneGraph) (h : Nat) (key : String)
    (t : CType) : Option (Except Err Val) :=
  match findNode g.m_nodes h with
  | none => none
  | some node => some (node.getValue key t)

/-! ### Lifecycle traces

To state the live-collection invariant, client-driven lifecycle histories
are traces of create/delete operations replayed against the graph. -/

/-- One client lifecycle operation on the graph. -/
inductive GOp : Type where
  | create (t : Nat)
  | delete (h : Nat)
deriving DecidableEq, Repr

/-- Replay one lifecycle operation.  `delete` on an absent handle throws in
C++; the caller's graph is unchanged by the failed call. -/
def SceneGraph.runOp (g : SceneGraph) : GOp → SceneGraph
  | .create t => (g.createNode t).1
  | .delete h =>
    match g.deleteNode h with
    | .ok res => res.1
    | .error _ => g

/-- Replay a trace of lifecycle operations, left to right. -/
def SceneGraph.run (g : SceneGraph) : List GOp → SceneGraph
  | [] => g
  | op :: ops => (g.runOp op).run ops

/-- Handle `h` currently resolves to a node in the live-node collection. -/
def SceneGraph.isLive (g : SceneGraph) (h : Nat) : Bool :=
  (findNode g.m_nodes h).isSome

/-- The specification's own description of the collection invariant
("a Node appears in the collection if and only if it has been created and
not yet deleted"), transcribed independently of the graph code: with
handles issued in creation order starting from `c`, handle `h` is live
after a trace iff some create operation in it issues `h` and no delete
operation addressed to `h` follows that creation. -/
def specLiveAux (c : Nat) : List GOp → Nat → Bool
  | [], _ => false
  | .create _ :: rest, h =>
    (h = c && !(rest.contains (GOp.delete h))) || specLiveAux (c + 1) rest h
  | .delete _ :: rest, h => specLiveAux c rest h

/-- `specLiveAux` from a fresh graph: handles are issued from `0`. -/
def specLive (ops : List GOp) (h : Nat) : Bool := specLiveAux 0 ops h

/-! ## Claims about the Value Container -/

/-- C2, counterexample.  The claim says container copy-assignment always
succeeds, in particular with an empty source.  In the code, assigning an
empty container into one that holds a value throws `std::bad_cast`
(`parameter.h`, `operator=(Parameter const&)`): here the target holds the
integer `1`, the source is default-constructed, and the result is the
`TypeLockViolation` error, not success. -/
theorem copyAssign_empty_source_throws :
    (Parameter.ofVal (Val.vint 1)).copyAssign Parameter.empty =
        .error .typeLockViolation ∧
      (Parameter.ofVal (Val.vint 1)).copyAssign Parameter.empty ≠
        .ok ⟨none, false⟩ := by
  refine ⟨rfl, fun hcontra => ?_⟩
  rw [show (Parameter.ofVal (Val.vint 1)).copyAssign Parameter.empty =
      .error .typeLockViolation from rfl] at hcontra
  cases hcontra

/-- C2, amended.  Container copy-assignment either replaces the target's
contents with a clone of the source's contents (keeping the target's own
lock flag) or throws `TypeLockViolation`; it succeeds exactly when the
source holds a value and (the target is unlocked, or empty, or holds the
same erased type), or when both containers are empty.  In particular it
fails when the target holds a value and the source is empty. -/
theorem copyAssign_characterization (p rhs : Parameter) :
    (p.copyAssign rhs = .ok ⟨rhs.m_placeholder, p.m_type_lock⟩ ∨
      p.copyAssign rhs = .error .typeLockViolation) ∧
    (p.copyAssign rhs = .ok ⟨rhs.m_placeholder, p.m_type_lock⟩ ↔
      (rhs.m_placeholder.isSome = true ∧
        (p.m_type_lock = false ∨ p.m_placeholder = none ∨
          p.heldTy = rhs.heldTy)) ∨
      (p.m_placeholder = none ∧ rhs.m_placeholder = none)) := by
  obtain ⟨pp, pl⟩ := p
  obtain ⟨rp, rl⟩ := rhs
  cases pp with
  | none =>
    cases rp <;> cases pl <;>
      simp [Parameter.copyAssign, Parameter.heldTy]
  | some w =>
    cases rp with
    | none =>
      cases pl <;> simp [Parameter.copyAssign, Parameter.heldTy]
    | some v =>
      cases pl with
      | false => simp [Parameter.copyAssign, Parameter.heldTy]
      | true =>
        by_cases hty : v.ty = w.ty
        · simp [Parameter.copyAssign, Parameter.heldTy, hty]
        · simp [Parameter.copyAssign, Parameter.heldTy, hty]
          exact fun h2 => hty h2.symm

/-- C4.  With the lock on and a value of type `w.ty` held, value assignment
succeeds for the same erased type and throws `TypeLockViolation` for a
different one; with the lock off, assignment of any value succeeds,
replacing the held value even when the erased type changes. -/
theorem assign_type_lock_semantics (p : Parameter) (v w : Val) :
    (p.m_type_lock = true → p.m_placeholder = some w →
      ((v.ty = w.ty → p.assign v = .ok ⟨some v, true⟩) ∧
        (v.ty ≠ w.ty → p.assign v = .error .typeLockViolation))) ∧
    (p.m_type_lock = false → p.assign v = .ok ⟨some v, false⟩) := by
  obtain ⟨pp, pl⟩ := p
  constructor
  · rintro rfl rfl
    constructor
    · intro hty
      simp [Parameter.assign, Parameter.heldTy, hty]
    · intro hty
      simp [Parameter.assign, Parameter.heldTy]
      exact fun h => absurd h.symm hty
  · rintro rfl
    simp [Parameter.assign]

/-- C4, witness: a locked container holding `int 1` accepts `int 2` and
rejects a string; an unlocked container holding `int 1` accepts a sequence,
changing the erased type. -/
theorem assign_type_lock_semantics_witness :
    ((Parameter.ofVal (Val.vint 1)).setTypeLock true).m_type_lock = true ∧
    ((Parameter.ofVal (Val.vint 1)).setTypeLock true).m_placeholder =
      some (Val.vint 1) ∧
    ((Parameter.ofVal (Val.vint 1)).setTypeLock true).assign (Val.vint 2) =
      .ok ⟨some (Val.vint 2), true⟩ ∧
    ((Parameter.ofVal (Val.vint 1)).setTypeLock true).assign
        (Val.vstr "x") = .error .typeLockViolation ∧
    (Parameter.ofVal (Val.vint 1)).assign (Val.vseq [1, 2]) =
      .ok ⟨some (Val.vseq [1, 2]), false⟩ :=
  ⟨rfl, rfl,
    ((assign_type_lock_semantics _ (Val.vint 2) (Val.vint 1)).1 rfl rfl).1
      rfl,
    ((assign_type_lock_semantics _ (Val.vstr "x") (Val.vint 1)).1 rfl
        rfl).2 (by decide),
    (assign_type_lock_semantics _ (Val.vseq [1, 2]) (Val.vint 1)).2 rfl⟩

/-- C8.  A container constructed from any value `v` returns `v` from
`As<T>` for every qualified spelling of the stored type — `T`, `const T`,
`T&&`, `const T&`, ... — since all of them decay to the same base type;
extraction succeeds and is insensitive to the qualifiers. -/
theorem As_qualifier_insensitive_roundtrip (v : Val) (c : Bool) (r : CRef) :
    (Parameter.ofVal v).As ⟨v.ty, c, r⟩ = .ok v := by
  simp [Parameter.As, Parameter.ofVal, CType.decay]

/-- C10.  Copy construction copies the source's lock flag into the new
container; successful copy-assignment leaves the target's own lock flag in
place, replacing only the payload. -/
theorem lock_flag_copy_semantics :
    (∀ rhs : Parameter,
      (Parameter.copyCtor rhs).m_type_lock = rhs.m_type_lock) ∧
    (∀ p rhs r : Parameter,
      p.copyAssign rhs = .ok r → r.m_type_lock = p.m_type_lock) := by
  refine ⟨fun rhs => rfl, fun p rhs r hok => ?_⟩
  unfold Parameter.copyAssign at hok
  split_ifs at hok
  cases hok
  rfl

/-- C10, witness: copy-assigning an unlocked `int 2` container into a
locked `int 1` container keeps the target locked; copy-constructing from a
locked container yields a locked container. -/
theorem lock_flag_copy_semantics_witness :
    (Parameter.mk (some (Val.vint 1)) true).copyAssign
        (Parameter.ofVal (Val.vint 2)) =
      .ok (Parameter.mk (some (Val.vint 2)) true) ∧
    (Parameter.mk (some (Val.vint 2)) true).m_type_lock =
      (Parameter.mk (some (Val.vint 1)) true).m_type_lock ∧
    (Parameter.copyCtor
        ((Parameter.ofVal (Val.vint 3)).setTypeLock true)).m_type_lock =
      ((Parameter.ofVal (Val.vint 3)).setTypeLock true).m_type_lock :=
  ⟨rfl,
    lock_flag_copy_semantics.2 (Parameter.mk (some (Val.vint 1)) true)
      (Parameter.ofVal (Val.vint 2))
      (Parameter.mk (some (Val.vint 2)) true) rfl,
    lock_flag_copy_semantics.1 ((Parameter.ofVal (Val.vint 3)).setTypeLock
      true)⟩

/-- C9.  Copy-constructing a container that holds a value allocates a fresh
`Holder` (a new address, distinct from the source's), holding an equal
value: afterwards, mutating in place through the clone leaves the original's
value unchanged, mutating through the original leaves the clone's value
unchanged, and copy-constructing an empty container allocates nothing and
yields an empty container. -/
theorem clone_deep_independence (hp : PHeap) (p : ParamH) (a : Nat)
    (ha : p.m_placeholder = some a) (hlen : a < hp.cells.length) :
    (ParamH.copyCtor hp p).2.m_placeholder ≠ p.m_placeholder ∧
    ParamH.read (ParamH.copyCtor hp p).1 (ParamH.copyCtor hp p).2 =
      ParamH.read hp p ∧
    (∀ f, ParamH.read
        (ParamH.mutate (ParamH.copyCtor hp p).1 (ParamH.copyCtor hp p).2 f)
        p = ParamH.read hp p) ∧
    (∀ f, ParamH.read
        (ParamH.mutate (ParamH.copyCtor hp p).1 p f)
        (ParamH.copyCtor hp p).2 = ParamH.read hp p) ∧
    (∀ (hq : PHeap) (l : Bool),
      ParamH.copyCtor hq ⟨none, l⟩ = (hq, ⟨none, l⟩)) := by
  have hv : hp.cells[a]? = some hp.cells[a] := List.getElem?_eq_getElem hlen
  have hne : hp.cells.length ≠ a := Nat.ne_of_gt hlen
  have hne2 : a ≠ hp.cells.length := Nat.ne_of_lt hlen
  have hcc : ParamH.copyCtor hp p =
      (⟨hp.cells ++ [hp.cells[a]]⟩,
        ⟨some hp.cells.length, p.m_type_lock⟩) := by
    simp only [ParamH.copyCtor, ha, PHeap.get, hv, PHeap.alloc]
  refine ⟨?_, ?_, ?_, ?_, fun hq l => rfl⟩
  · rw [hcc, ha]
    simp only [ne_eq, Option.some.injEq]
    exact hne
  · rw [hcc]
    simp only [ParamH.read, PHeap.get, ha, Option.some_bind,
      List.getElem?_concat_length, hv]
  · intro f
    rw [hcc]
    simp only [ParamH.mutate, ParamH.read, PHeap.get, PHeap.put, ha,
      Option.some_bind, List.getElem?_concat_length,
      List.getElem?_set_ne hne, List.getElem?_append_left hlen, hv]
  · intro f
    rw [hcc]
    simp only [ParamH.mutate, ParamH.read, PHeap.get, PHeap.put, ha,
      Option.some_bind, List.getElem?_append_left hlen, hv,
      List.getElem?_set_ne hne2, List.getElem?_concat_length]

/-- C9, concrete clone scenario: a single container holding the sequence
`[1, 2, 3]`. -/
def cloneHeap : PHeap := ⟨[Val.vseq [1, 2, 3]]⟩

/-- C9, concrete container addressing that sequence. -/
def cloneParam : ParamH := ⟨some 0, false⟩

/-- C9, concrete mutator: append `4` to a held sequence. -/
def cloneMutator : Val → Val
  | .vseq l => .vseq (l ++ [4])
  | v => v

/-- C9, witness: cloning the `[1, 2, 3]` container and appending through
either side leaves the other side's value unchanged. -/
theorem clone_deep_independence_witness :
    cloneParam.m_placeholder = some 0 ∧ 0 < cloneHeap.cells.length ∧
    ParamH.read
        (ParamH.mutate (ParamH.copyCtor cloneHeap cloneParam).1
          (ParamH.copyCtor cloneHeap cloneParam).2 cloneMutator)
        cloneParam = ParamH.read cloneHeap cloneParam ∧
    ParamH.read
        (ParamH.mutate (ParamH.copyCtor cloneHeap cloneParam).1 cloneParam
          cloneMutator)
        (ParamH.copyCtor cloneHeap cloneParam).2 =
      ParamH.read cloneHeap cloneParam :=
  ⟨rfl, by decide,
    (clone_deep_independence cloneHeap cloneParam 0 rfl (by decide)).2.2.1
      cloneMutator,
    (clone_deep_independence cloneHeap cloneParam 0 rfl
        (by decide)).2.2.2.1 cloneMutator⟩

/-! ## Helper lemmas about the node collection -/

/-- A handle outside the key set of the collection resolves to nothing. -/
theorem findNode_eq_none_of_not_mem (l : List (Nat × Node)) (h : Nat)
    (hm : h ∉ l.map Prod.fst) : findNode l h = none := by
  induction l with
  | nil => rfl
  | cons kn rest ih =>
    obtain ⟨k, n⟩ := kn
    simp only [List.map_cons, List.mem_cons] at hm
    push_neg at hm
    have hk : ¬k = h := fun he => hm.1 he.symm
    simp only [findNode, if_neg hk]
    exact ih hm.2

/-- A handle resolves to a node exactly when it is among the keys. -/
theorem isSome_findNode_iff_mem (l : List (Nat × Node)) (h : Nat) :
    (findNode l h).isSome = true ↔ h ∈ l.map Prod.fst := by
  induction l with
  | nil => simp [findNode]
  | cons kn rest ih =>
    obtain ⟨k, n⟩ := kn
    by_cases hk : k = h
    · subst hk
      simp [findNode]
    · simp only [findNode, if_neg hk, List.map_cons, List.mem_cons, ih]
      constructor
      · exact Or.inr
      · rintro (he | hm)
        · exact absurd he.symm hk
        · exact hm

/-- Appending entries looks them up only after the existing ones. -/
theorem findNode_append (l1 l2 : List (Nat × Node)) (h : Nat) :
    findNode (l1 ++ l2) h = (findNode l1 h).or (findNode l2 h) := by
  induction l1 with
  | nil => simp [findNode]
  | cons kn rest ih =>
    obtain ⟨k, n⟩ := kn
    by_cases hk : k = h <;> simp [findNode, hk, ih]

/-- Erasing a key (with distinct keys) removes exactly that handle. -/
theorem findNode_eraseKey (l : List (Nat × Node)) (d : Nat)
    (hnd : (l.map Prod.fst).Nodup) (h : Nat) :
    findNode (eraseKey l d) h = if h = d then none else findNode l h := by
  induction l with
  | nil => simp [eraseKey, findNode]
  | cons kn rest ih =>
    obtain ⟨k, n⟩ := kn
    simp only [List.map_cons, List.nodup_cons] at hnd
    by_cases hkd : k = d
    · subst hkd
      by_cases hhd : h = k
      · subst hhd
        simp [eraseKey, findNode_eq_none_of_not_mem rest h hnd.1]
      · have hk : ¬k = h := fun he => hhd he.symm
        simp [eraseKey, findNode, hhd, hk]
    · by_cases hkh : k = h
      · subst hkh
        simp [eraseKey, findNode, hkd]
      · simp [eraseKey, findNode, hkd, hkh, ih hnd.2]

/-- The keys of the collection after an erase form a sub-sequence of the
keys before it. -/
theorem eraseKey_keys_sublist (l : List (Nat × Node)) (d : Nat) :
    ((eraseKey l d).map Prod.fst).Sublist (l.map Prod.fst) := by
  induction l with
  | nil => simp [eraseKey]
  | cons kn rest ih =>
    obtain ⟨k, n⟩ := kn
    by_cases hk : k = d
    · simp only [eraseKey, if_pos hk, List.map_cons]
      exact (List.sublist_cons_self _ _)
    · simp only [eraseKey, if_neg hk, List.map_cons]
      exact ih.cons₂ k

/-- Replacing the node stored under a live handle: the handle now resolves
to the replacement. -/
theorem findNode_setNodeAssoc_self (l : List (Nat × Node)) (h : Nat)
    (n2 : Node) (hk : (findNode l h).isSome = true) :
    findNode (setNodeAssoc l h n2) h = some n2 := by
  induction l with
  | nil => simp [findNode] at hk
  | cons kn rest ih =>
    obtain ⟨k, n⟩ := kn
    by_cases hkh : k = h
    · simp [setNodeAssoc, findNode, hkh]
    · simp only [findNode, if_neg hkh] at hk
      simp only [setNodeAssoc, if_neg hkh, findNode, if_neg hkh]
      exact ih hk

/-- Replacing the node stored under one handle leaves every other handle's
resolution unchanged. -/
theorem findNode_setNodeAssoc_ne (l : List (Nat × Node)) (h : Nat)
    (n2 : Node) (h2 : Nat) (hne : h2 ≠ h) :
    findNode (setNodeAssoc l h n2) h2 = findNode l h2 := by
  induction l with
  | nil => simp [setNodeAssoc]
  | cons kn rest ih =>
    obtain ⟨k, n⟩ := kn
    by_cases hkh : k = h
    · subst hkh
      have hne2 : ¬k = h2 := fun he => hne he.symm
      simp [setNodeAssoc, findNode, hne2]
    · simp [setNodeAssoc, findNode, hkh, ih]

/-- Replacing the parameter stored under a present key: the key now maps to
the replacement. -/
theorem findParam_setAssoc_self (ps : List (String × Parameter))
    (key : String) (q : Parameter) (hk : (findParam ps key).isSome = true) :
    findParam (setAssoc ps key q) key = some q := by
  induction ps with
  | nil => simp [findParam] at hk
  | cons kp rest ih =>
    obtain ⟨k, p⟩ := kp
    by_cases hkh : k = key
    · simp [setAssoc, findParam, hkh]
    · simp only [findParam, if_neg hkh] at hk
      simp only [setAssoc, if_neg hkh, findParam, if_neg hkh]
      exact ih hk

/-- Replacing the parameter stored under one key leaves every other key's
mapping unchanged. -/
theorem findParam_setAssoc_ne (ps : List (String × Parameter))
    (key : String) (q : Parameter) (k2 : String) (hne : k2 ≠ key) :
    findParam (setAssoc ps key q) k2 = findParam ps k2 := by
  induction ps with
  | nil => simp [setAssoc]
  | cons kp rest ih =>
    obtain ⟨k, p⟩ := kp
    by_cases hkh : k = key
    · subst hkh
      have hne2 : ¬k = k2 := fun he => hne he.symm
      simp [setAssoc, findParam, hne2]
    · simp [setAssoc, findParam, hkh, ih]

/-! ## Claims about node lifecycle and handles -/

/-- C1, concrete scenario: a factory giving every node one integer
attribute named `type`. -/
def c1Factory : Nat → List (String × Parameter) :=
  fun _ => [("type", Parameter.ofVal (Val.vint 5))]

/-- C1, a graph holding one live node, created under handle `0`. -/
def c1Graph : SceneGraph := ((SceneGraph.mk0 c1Factory).createNode 0).1

/-- C1, the same graph after `delete_node(0)` has succeeded. -/
def c1Deleted : SceneGraph := c1Graph.runOp (GOp.delete 0)

/-- C1, counterexample.  The claim says every Node operation addressed
through a deleted handle fails with `NodeNotFoundError`.  In the code
`Node::SetValue`, `Node::ModifyValue` and `Node::GetValue` perform no
liveness check at all: after `delete_node(0)` succeeds on this concrete
graph, a call through handle `0` dereferences the destroyed node and has
no defined result (modelled `none`) — in particular it is not the claimed
`NodeNotFoundError`.  Only `DeleteNode` itself detects the dead handle. -/
theorem node_ops_after_delete_cex :
    c1Graph.isLive 0 = true ∧
    c1Graph.deleteNode 0 = .ok (c1Deleted, []) ∧
    c1Deleted.isLive 0 = false ∧
    c1Deleted.setValueVia 0 "type" (Val.vint 10) = none ∧
    c1Deleted.setValueVia 0 "type" (Val.vint 10) ≠
      some (.error .nodeNotFound) ∧
    c1Deleted.getValueVia 0 "type" ⟨Ty.tint, false, CRef.plain⟩ = none ∧
    c1Deleted.modifyValueVia 0 "type" ⟨Ty.tint, false, CRef.plain⟩ id =
      none := by
  refine ⟨rfl, rfl, rfl, rfl, fun hcontra => ?_, rfl, rfl⟩
  rw [show c1Deleted.setValueVia 0 "type" (Val.vint 10) = none from rfl]
    at hcontra
  cases hcontra

/-- C1, amended.  Once a handle is absent from the live collection (never
created, or already deleted), a `delete_node` through it fails with
`NodeNotFoundError`; but `set_value`, `modify_value` and `get_value`
through it are not detected: the Node operations perform no liveness check,
so such a call dereferences a destroyed node and has no defined result,
rather than failing with `NodeNotFoundError`. -/
theorem node_ops_after_delete (g : SceneGraph) (h : Nat) (key : String)
    (t : CType) (v : Val) (f : Val → Val)
    (hdead : findNode g.m_nodes h = none) :
    g.deleteNode h = .error .nodeNotFound ∧
    g.setValueVia h key v = none ∧
    g.modifyValueVia h key t f = none ∧
    g.getValueVia h key t = none := by
  refine ⟨?_, ?_, ?_, ?_⟩ <;>
    simp [SceneGraph.deleteNode, SceneGraph.setValueVia,
      SceneGraph.modifyValueVia, SceneGraph.getValueVia, hdead]

/-- C1, witness: after deleting handle `0`, a second delete throws
`NodeNotFoundError` while a `set_value` through the dead handle has no
defined result. -/
theorem node_ops_after_delete_witness :
    findNode c1Deleted.m_nodes 0 = none ∧
    c1Deleted.deleteNode 0 = .error .nodeNotFound ∧
    c1Deleted.setValueVia 0 "type" (Val.vint 10) = none :=
  ⟨rfl,
    (node_ops_after_delete c1Deleted 0 "type" ⟨Ty.tint, false, CRef.plain⟩
      (Val.vint 10) id rfl).1,
    (node_ops_after_delete c1Deleted 0 "type" ⟨Ty.tint, false, CRef.plain⟩
      (Val.vint 10) id rfl).2.1⟩

/-- The filter test of `FilteredCallback::operator()` accepts node type `t`
exactly when the filter set is empty (match-all) or contains `t`. -/
theorem matches_iff (cb : FilteredCallback) (t : Nat) :
    cb.matches t = true ↔ (cb.m_filter = [] ∨ t ∈ cb.m_filter) := by
  simp [FilteredCallback.matches, List.contains, List.isEmpty_iff,
    List.elem_iff]

/-- Unfolding one registry entry of a dispatch: the head callback runs
first iff its filter matches, then the rest of the registry runs. -/
theorem dispatch_cons (c : FilteredCallback) (rest : List FilteredCallback)
    (t : Nat) (mk : Nat → Event) :
    dispatch (c :: rest) t mk =
      if c.matches t = true then mk c.id :: dispatch rest t mk
      else dispatch rest t mk := by
  by_cases hm : c.matches t <;> simp [dispatch, List.filterMap_cons, hm]

/-- A wrapped function whose identity is not registered in a registry is
never invoked by one dispatch over it. -/
theorem count_dispatch_zero (reg : List FilteredCallback) (t : Nat)
    (mk : Nat → Event) (hinj : ∀ i j, mk i = mk j → i = j) (i : Nat)
    (hi : i ∉ reg.map FilteredCallback.id) :
    (dispatch reg t mk).count (mk i) = 0 := by
  induction reg with
  | nil => rfl
  | cons c rest ih =>
    simp only [List.map_cons, List.mem_cons] at hi
    push_neg at hi
    rw [dispatch_cons]
    by_cases hm : c.matches t
    · have hne : ¬mk c.id = mk i := fun he => hi.1 (hinj _ _ he).symm
      rw [if_pos hm, List.count_cons, ih hi.2]
      simp [hne]
    · rw [if_neg hm]
      exact ih hi.2

/-- One dispatch over a registry with distinct wrapped-function identities
invokes a registered callback exactly once if its filter matches the node
type, and not at all otherwise. -/
theorem count_dispatch (reg : List FilteredCallback) (t : Nat)
    (mk : Nat → Event) (hinj : ∀ i j, mk i = mk j → i = j)
    (hnd : (reg.map FilteredCallback.id).Nodup) (cb : FilteredCallback)
    (hcb : cb ∈ reg) :
    (dispatch reg t mk).count (mk cb.id) =
      if cb.matches t = true then 1 else 0 := by
  induction reg with
  | nil => cases hcb
  | cons c rest ih =>
    simp only [List.map_cons, List.nodup_cons] at hnd
    rw [dispatch_cons]
    rcases List.mem_cons.mp hcb with rfl | hmem
    · have hz := count_dispatch_zero rest t mk hinj cb.id hnd.1
      by_cases hm : cb.matches t
      · rw [if_pos hm, List.count_cons, hz, if_pos hm]
        simp
      · rw [if_neg hm, hz, if_neg hm]
    · have hid : cb.id ≠ c.id := by
        intro he
        exact hnd.1 (he ▸ List.mem_map_of_mem FilteredCallback.id hmem)
      by_cases hm : c.matches t
      · have hne : ¬mk c.id = mk cb.id := fun he => hid (hinj _ _ he).symm
        rw [if_pos hm, List.count_cons, ih hnd.2 hmem]
        simp [hne]
      · rw [if_neg hm]
        exact ih hnd.2 hmem

/-- C5.  For a callback registered on any of the three registries (with
registered wrapped functions pairwise distinct), one create, delete, or
parameter-change event for a node of type `t` invokes the callback exactly
once when its filter set `F` is empty or `t ∈ F`, and zero times
otherwise. -/
theorem callback_filter_semantics (g : SceneGraph) (t h : Nat)
    (key : String) (cb : FilteredCallback) :
    ((g.m_cb_create.map FilteredCallback.id).Nodup → cb ∈ g.m_cb_create →
      (g.fireOnNodeCreate t h).count (.createEv cb.id h) =
        if cb.m_filter = [] ∨ t ∈ cb.m_filter then 1 else 0) ∧
    ((g.m_cb_delete.map FilteredCallback.id).Nodup → cb ∈ g.m_cb_delete →
      (g.fireOnNodeDelete t h).count (.deleteEv cb.id h) =
        if cb.m_filter = [] ∨ t ∈ cb.m_filter then 1 else 0) ∧
    ((g.m_cb_change.map FilteredCallback.id).Nodup → cb ∈ g.m_cb_change →
      (g.fireOnNodeParameterChange t h key).count
          (.changeEv cb.id h key) =
        if cb.m_filter = [] ∨ t ∈ cb.m_filter then 1 else 0) := by
  have hinjc : ∀ i j : Nat,
      Event.createEv i h = Event.createEv j h → i = j := by
    intro i j he
    injection he with h1 h2
  have hinjd : ∀ i j : Nat,
      Event.deleteEv i h = Event.deleteEv j h → i = j := by
    intro i j he
    injection he with h1 h2
  have hinjk : ∀ i j : Nat,
      Event.changeEv i h key = Event.changeEv j h key → i = j := by
    intro i j he
    injection he with h1 h2
  refine ⟨fun hnd hcb => ?_, fun hnd hcb => ?_, fun hnd hcb => ?_⟩
  · rw [SceneGraph.fireOnNodeCreate,
      count_dispatch g.m_cb_create t (fun i => Event.createEv i h) hinjc
        hnd cb hcb,
      if_congr (matches_iff cb t) rfl rfl]
  · rw [SceneGraph.fireOnNodeDelete,
      count_dispatch g.m_cb_delete t (fun i => Event.deleteEv i h) hinjd
        hnd cb hcb,
      if_congr (matches_iff cb t) rfl rfl]
  · rw [SceneGraph.fireOnNodeParameterChange,
      count_dispatch g.m_cb_change t (fun i => Event.changeEv i h key)
        hinjk hnd cb hcb,
      if_congr (matches_iff cb t) rfl rfl]

/-- C5, witness: a graph with one create callback filtered to `{0, 1}`.
A create event for a node of type `0` invokes it once; one for type `2`
does not invoke it. -/
theorem callback_filter_semantics_witness :
    ((((SceneGraph.mk0 c1Factory).registerOnNodeCreate
        [0, 1]).m_cb_create.map FilteredCallback.id).Nodup ∧
      (⟨0, [0, 1]⟩ : FilteredCallback) ∈
        ((SceneGraph.mk0 c1Factory).registerOnNodeCreate
          [0, 1]).m_cb_create) ∧
    (((SceneGraph.mk0 c1Factory).registerOnNodeCreate
          [0, 1]).fireOnNodeCreate 0 0).count (.createEv 0 0) =
      (if ([0, 1] : List Nat) = [] ∨ 0 ∈ ([0, 1] : List Nat) then 1
        else 0) ∧
    (((SceneGraph.mk0 c1Factory).registerOnNodeCreate
          [0, 1]).fireOnNodeCreate 2 0).count (.createEv 0 0) =
      (if ([0, 1] : List Nat) = [] ∨ 2 ∈ ([0, 1] : List Nat) then 1
        else 0) :=
  ⟨⟨by decide, by decide⟩,
    (callback_filter_semantics
      ((SceneGraph.mk0 c1Factory).registerOnNodeCreate [0, 1]) 0 0 "k"
      ⟨0, [0, 1]⟩).1 (by decide) (by decide),
    (callback_filter_semantics
      ((SceneGraph.mk0 c1Factory).registerOnNodeCreate [0, 1]) 2 0 "k"
      ⟨0, [0, 1]⟩).1 (by decide) (by decide)⟩

/-- Dispatch invokes exactly the matching callbacks, in registry
(registration) order. -/
theorem dispatch_eq_map_filter (reg : List FilteredCallback) (t : Nat)
    (mk : Nat → Event) :
    dispatch reg t mk =
      (reg.filter (fun cb => cb.matches t)).map
        (fun cb => mk cb.id) := by
  induction reg with
  | nil => rfl
  | cons c rest ih =>
    rw [dispatch_cons]
    by_cases hm : c.matches t <;> simp [List.filter_cons, hm, ih]

/-- C6.  Deleting a live handle succeeds; the invoked delete callbacks are
exactly the delete-registry entries whose filter matches the node's type,
in registration order, all dispatched against the scene that still
contains the node; removal of the node from the collection happens after
the dispatch, and (with distinct keys) the handle no longer resolves
afterwards. -/
theorem delete_fires_before_removal (g : SceneGraph) (h : Nat)
    (node : Node) (hlive : findNode g.m_nodes h = some node) :
    ∃ g2 evs, g.deleteNode h = .ok (g2, evs) ∧
      evs = (g.m_cb_delete.filter (fun cb => cb.matches node.m_type)).map
        (fun cb => Event.deleteEv cb.id h) ∧
      (∀ cb ∈ g.m_cb_delete, cb.matches node.m_type = true →
        Event.deleteEv cb.id h ∈ evs) ∧
      g.isLive h = true ∧
      g2.m_nodes = eraseKey g.m_nodes h ∧
      ((g.m_nodes.map Prod.fst).Nodup → g2.isLive h = false) := by
  refine ⟨{ g with m_nodes := eraseKey g.m_nodes h },
    g.fireOnNodeDelete node.m_type h, ?_, ?_, ?_, ?_, rfl, ?_⟩
  · simp [SceneGraph.deleteNode, hlive]
  · exact dispatch_eq_map_filter g.m_cb_delete node.m_type _
  · intro cb hcb hm
    rw [SceneGraph.fireOnNodeDelete, dispatch_eq_map_filter]
    exact List.mem_map_of_mem _ (List.mem_filter.mpr ⟨hcb, hm⟩)
  · simp [SceneGraph.isLive, hlive]
  · intro hnd
    simp [SceneGraph.isLive, findNode_eraseKey g.m_nodes h hnd h]

/-- C6, concrete scenario: a graph with one match-all delete callback and
one live node of type `0` under handle `0`. -/
def c6Graph : SceneGraph :=
  (((SceneGraph.mk0 c1Factory).registerOnNodeDelete []).createNode 0).1

/-- C6, witness: deleting handle `0` of the concrete graph fires its
delete callback before removing the node. -/
theorem delete_fires_before_removal_witness :
    findNode c6Graph.m_nodes 0 = some ⟨0, c1Factory 0⟩ ∧
    (∃ g2 evs, c6Graph.deleteNode 0 = .ok (g2, evs) ∧
      evs = (c6Graph.m_cb_delete.filter
          (fun cb => cb.matches (Node.mk 0 (c1Factory 0)).m_type)).map
        (fun cb => Event.deleteEv cb.id 0) ∧
      (∀ cb ∈ c6Graph.m_cb_delete,
        cb.matches (Node.mk 0 (c1Factory 0)).m_type = true →
        Event.deleteEv cb.id 0 ∈ evs) ∧
      c6Graph.isLive 0 = true ∧
      g2.m_nodes = eraseKey c6Graph.m_nodes 0 ∧
      ((c6Graph.m_nodes.map Prod.fst).Nodup → g2.isLive 0 = false)) :=
  ⟨rfl, delete_fires_before_removal c6Graph 0 ⟨0, c1Factory 0⟩ rfl⟩

/-- C3.  A `set_value(key, v)` on a live node either (a) succeeds: the
attribute's container now holds `v`, every other attribute of the node and
every other node are unchanged, and the change-notification dispatch for
`(node, key)` runs exactly once (producing only change events for this
node and key); or (b) fails with `KeyNotFoundError` or `TypeLockViolation`
before any mutation and before any notification. -/
theorem setValue_atomicity (g : SceneGraph) (h : Nat) (node : Node)
    (key : String) (v : Val)
    (hlive : findNode g.m_nodes h = some node) :
    (∃ g2 evs, g.setValueVia h key v = some (.ok (g2, evs)) ∧
      (∃ n2, findNode g2.m_nodes h = some n2 ∧
        (∃ q, n2.find key = some q ∧ q.m_placeholder = some v) ∧
        (∀ k2, k2 ≠ key → n2.find k2 = node.find k2)) ∧
      (∀ h2, h2 ≠ h → findNode g2.m_nodes h2 = findNode g.m_nodes h2) ∧
      evs = g.fireOnNodeParameterChange node.m_type h key ∧
      (∀ e ∈ evs, ∃ cb, e = Event.changeEv cb h key)) ∨
    (∃ e, g.setValueVia h key v = some (.error e) ∧
      (e = .keyNotFound ∨ e = .typeLockViolation)) := by
  cases hfind : node.find key with
  | none =>
    refine Or.inr ⟨.keyNotFound, ?_, Or.inl rfl⟩
    simp [SceneGraph.setValueVia, hlive, Node.setValue, hfind, Except.map]
  | some p =>
    by_cases hcond : p.m_type_lock = true ∧ p.m_placeholder.isSome = true ∧
        p.heldTy ≠ some v.ty
    · refine Or.inr ⟨.typeLockViolation, ?_, Or.inr rfl⟩
      simp [SceneGraph.setValueVia, hlive, Node.setValue, hfind,
        Parameter.assign, hcond, Except.map]
    · have hassign : p.assign v = .ok ⟨some v, p.m_type_lock⟩ := by
        simp [Parameter.assign, hcond]
      have hset : node.setValue key v =
          .ok ⟨node.m_type,
            setAssoc node.m_paramset key ⟨some v, p.m_type_lock⟩⟩ := by
        simp [Node.setValue, hfind, hassign, Except.map]
      have hvia : g.setValueVia h key v = some (.ok
          ({ g with
              m_nodes := setNodeAssoc g.m_nodes h
                           (Node.mk node.m_type
                             (setAssoc node.m_paramset key
                               (Parameter.mk (some v) p.m_type_lock))) },
            g.fireOnNodeParameterChange node.m_type h key)) := by
        simp [SceneGraph.setValueVia, hlive, hset, Except.map]
      refine Or.inl ⟨_, _, hvia, ⟨⟨node.m_type,
          setAssoc node.m_paramset key ⟨some v, p.m_type_lock⟩⟩,
          ?_, ⟨⟨some v, p.m_type_lock⟩, ?_, rfl⟩, ?_⟩, ?_, rfl, ?_⟩
      · exact findNode_setNodeAssoc_self g.m_nodes h _
          (by simp [hlive])
      · exact findParam_setAssoc_self node.m_paramset key _
          (by rw [show findParam node.m_paramset key = some p from hfind]
              rfl)
      · intro k2 hk2
        exact findParam_setAssoc_ne node.m_paramset key _ k2 hk2
      · intro h2 hh2
        exact findNode_setNodeAssoc_ne g.m_nodes h _ h2 hh2
      · intro e he
        rw [SceneGraph.fireOnNodeParameterChange,
          dispatch_eq_map_filter] at he
        obtain ⟨cb, _, rfl⟩ := List.mem_map.mp he
        exact ⟨cb.id, rfl⟩

/-- C3, concrete scenario: a graph with one match-all change callback and
one live node of type `0` under handle `0`. -/
def c3Graph : SceneGraph :=
  (((SceneGraph.mk0 c1Factory).registerOnNodeChange []).createNode 0).1

/-- C3, witness: setting the live node's `type` attribute to `int 10`
commits the value and fires the change dispatch once. -/
theorem setValue_atomicity_witness :
    findNode c3Graph.m_nodes 0 = some ⟨0, c1Factory 0⟩ ∧
    ((∃ g2 evs, c3Graph.setValueVia 0 "type" (Val.vint 10) =
        some (.ok (g2, evs)) ∧
      (∃ n2, findNode g2.m_nodes 0 = some n2 ∧
        (∃ q, n2.find "type" = some q ∧
          q.m_placeholder = some (Val.vint 10)) ∧
        (∀ k2, k2 ≠ "type" → n2.find k2 = (Node.mk 0 (c1Factory 0)).find
          k2)) ∧
      (∀ h2, h2 ≠ 0 →
        findNode g2.m_nodes h2 = findNode c3Graph.m_nodes h2) ∧
      evs = c3Graph.fireOnNodeParameterChange
        (Node.mk 0 (c1Factory 0)).m_type 0 "type" ∧
      (∀ e ∈ evs, ∃ cb, e = Event.changeEv cb 0 "type")) ∨
    (∃ e, c3Graph.setValueVia 0 "type" (Val.vint 10) =
        some (.error e) ∧
      (e = .keyNotFound ∨ e = .typeLockViolation))) :=
  ⟨rfl, setValue_atomicity c3Graph 0 ⟨0, c1Factory 0⟩ "type"
    (Val.vint 10) rfl⟩

/-- After `create_node`, exactly the fresh handle is live on top of the
previously live ones. -/
theorem isLive_createNode (g : SceneGraph) (t h : Nat) :
    (g.createNode t).1.isLive h = true ↔
      (g.isLive h = true ∨ h = g.next) := by
  show (findNode (g.m_nodes ++ [(g.next, ⟨t, g.m_param_factory t⟩)])
      h).isSome = true ↔ _
  rw [findNode_append]
  simp only [Option.isSome_or, Bool.or_eq_true]
  constructor
  · rintro (hs | hs)
    · exact Or.inl hs
    · right
      by_cases hh : g.next = h
      · exact hh.symm
      · rw [show findNode [(g.next, (⟨t, g.m_param_factory t⟩ : Node))] h
            = none from by simp [findNode, hh]] at hs
        cases hs
  · rintro (hs | rfl)
    · exact Or.inl hs
    · right
      simp [findNode]

/-- Replaying a trace against a graph whose live handles are below its
allocation counter and whose keys are distinct: a handle is live afterwards
iff the trace creates it and never deletes it afterwards, or it was live
before and the trace never deletes it. -/
theorem run_live_aux (ops : List GOp) :
    ∀ g : SceneGraph,
      (∀ k, (findNode g.m_nodes k).isSome = true → k < g.next) →
      (g.m_nodes.map Prod.fst).Nodup →
      ∀ h, ((g.run ops).isLive h = true ↔
        (specLiveAux g.next ops h = true ∨
          (g.isLive h = true ∧ ops.contains (GOp.delete h) = false))) := by
  induction ops with
  | nil =>
    intro g hb hnd h
    simp [SceneGraph.run, specLiveAux]
  | cons op rest ih =>
    intro g hb hnd h
    cases op with
    | create t =>
      have hb1 : ∀ k,
          (findNode (g.createNode t).1.m_nodes k).isSome = true →
          k < (g.createNode t).1.next := by
        intro k hk
        rw [show (g.createNode t).1.m_nodes =
            g.m_nodes ++ [(g.next, ⟨t, g.m_param_factory t⟩)] from rfl,
          findNode_append, Option.isSome_or, Bool.or_eq_true] at hk
        rw [show (g.createNode t).1.next = g.next + 1 from rfl]
        rcases hk with hk | hk
        · exact Nat.lt_succ_of_lt (hb k hk)
        · by_cases he : g.next = k
          · omega
          · rw [show findNode [(g.next, (⟨t, g.m_param_factory t⟩ :
                Node))] k = none from by simp [findNode, he]] at hk
            cases hk
      have hmem : g.next ∉ g.m_nodes.map Prod.fst := by
        intro hm
        exact absurd (hb g.next ((isSome_findNode_iff_mem _ _).mpr hm))
          (lt_irrefl _)
      have hnd1 : ((g.createNode t).1.m_nodes.map Prod.fst).Nodup := by
        rw [show (g.createNode t).1.m_nodes =
            g.m_nodes ++ [(g.next, ⟨t, g.m_param_factory t⟩)] from rfl]
        rw [List.map_append]
        rw [List.nodup_append]
        refine ⟨hnd, List.nodup_singleton _, ?_⟩
        intro a ha hb2
        simp only [List.map_cons, List.map_nil, List.mem_singleton] at hb2
        exact hmem (hb2 ▸ ha)
      rw [show g.run (GOp.create t :: rest) =
          ((g.createNode t).1).run rest from rfl, ih _ hb1 hnd1 h]
      rw [isLive_createNode g t h,
        show (g.createNode t).1.next = g.next + 1 from rfl]
      simp only [specLiveAux, List.contains_cons, Bool.or_eq_true,
        Bool.and_eq_true, Bool.not_eq_true', decide_eq_true_eq,
        Bool.or_eq_false_iff, beq_eq_false_iff_ne, ne_eq]
      have hne : ¬GOp.delete h = GOp.create t := by simp
      tauto
    | delete d =>
      cases hd : findNode g.m_nodes d with
      | none =>
        have hrunA : g.run (GOp.delete d :: rest) = g.run rest := by
          show (g.runOp (GOp.delete d)).run rest = g.run rest
          simp [SceneGraph.runOp, SceneGraph.deleteNode, hd]
        rw [hrunA, ih g hb hnd h]
        simp only [specLiveAux, List.contains_cons, Bool.or_eq_true,
          Bool.and_eq_true, Bool.not_eq_true', Bool.or_eq_false_iff,
          beq_eq_false_iff_ne, ne_eq]
        constructor
        · rintro (ha | ⟨hl, hc⟩)
          · exact Or.inl ha
          · refine Or.inr ⟨hl, ?_, hc⟩
            intro he
            injection he with he2
            rw [he2] at hl
            rw [show SceneGraph.isLive g d = (findNode g.m_nodes
              d).isSome from rfl, hd] at hl
            cases hl
        · rintro (ha | ⟨hl, _, hc⟩)
          · exact Or.inl ha
          · exact Or.inr ⟨hl, hc⟩
      | some nd =>
        have hb2 : ∀ k, (findNode (eraseKey g.m_nodes d) k).isSome =
            true → k < g.next := by
          intro k hk
          rw [findNode_eraseKey g.m_nodes d hnd k] at hk
          by_cases hkd : k = d
          · rw [if_pos hkd] at hk
            cases hk
          · rw [if_neg hkd] at hk
            exact hb k hk
        have hnd2 : ((eraseKey g.m_nodes d).map Prod.fst).Nodup :=
          (eraseKey_keys_sublist g.m_nodes d).nodup hnd
        have hrunB : g.run (GOp.delete d :: rest) =
            (SceneGraph.mk (eraseKey g.m_nodes d) g.next
              g.m_param_factory g.m_cb_create g.m_cb_delete g.m_cb_change
              g.nextCb).run rest := by
          show (g.runOp (GOp.delete d)).run rest = _
          simp [SceneGraph.runOp, SceneGraph.deleteNode, hd]
        rw [hrunB, ih _ hb2 hnd2 h]
        simp only [specLiveAux, List.contains_cons, Bool.or_eq_true,
          Bool.and_eq_true, Bool.not_eq_true', Bool.or_eq_false_iff,
          beq_eq_false_iff_ne, ne_eq]
        rw [show (SceneGraph.mk (eraseKey g.m_nodes d) g.next
            g.m_param_factory g.m_cb_create g.m_cb_delete g.m_cb_change
            g.nextCb).isLive h = (findNode (eraseKey g.m_nodes d)
            h).isSome from rfl,
          findNode_eraseKey g.m_nodes d hnd h]
        by_cases hhd : h = d
        · rw [if_pos hhd]
          subst hhd
          constructor
          · rintro (ha | ⟨hl, hc⟩)
            · exact Or.inl ha
            · cases hl
          · rintro (ha | ⟨hl, hne, hc⟩)
            · exact Or.inl ha
            · exact absurd rfl (by exact fun he => hne (congrArg GOp.delete he))
        · rw [if_neg hhd]
          constructor
          · rintro (ha | ⟨hl, hc⟩)
            · exact Or.inl ha
            · exact Or.inr ⟨hl, fun he => hhd (by injection he), hc⟩
          · rintro (ha | ⟨hl, _, hc⟩)
            · exact Or.inl ha
            · exact Or.inr ⟨hl, hc⟩

/-- C7.  (a) Replaying any trace of create/delete operations from a fresh
graph, a handle resolves in the live-node collection iff the trace created
it and did not delete it afterwards (the specification's collection
invariant).  (b) `delete_node` succeeds at most once per handle: after a
successful delete (on a graph with distinct keys), a second
`delete_node` on the same handle fails with `NodeNotFoundError`. -/
theorem live_collection_invariant :
    (∀ (factory : Nat → List (String × Parameter)) (ops : List GOp)
        (h : Nat),
      ((SceneGraph.mk0 factory).run ops).isLive h = true ↔
        specLive ops h = true) ∧
    (∀ (g g2 : SceneGraph) (h : Nat) (evs : List Event),
      (g.m_nodes.map Prod.fst).Nodup → g.deleteNode h = .ok (g2, evs) →
      g2.deleteNode h = .error .nodeNotFound) := by
  constructor
  · intro factory ops h
    rw [run_live_aux ops (SceneGraph.mk0 factory)
      (by intro k hk; cases hk) (by simp [SceneGraph.mk0]) h]
    rw [show (SceneGraph.mk0 factory).next = 0 from rfl]
    rw [show SceneGraph.isLive (SceneGraph.mk0 factory) h =
      (findNode [] h).isSome from rfl]
    simp [findNode, specLive]
  · intro g g2 h evs hnd hdel
    cases hfind : findNode g.m_nodes h with
    | none =>
      rw [show g.deleteNode h = .error .nodeNotFound from by
        simp [SceneGraph.deleteNode, hfind]] at hdel
      cases hdel
    | some nd =>
      have hs : (Except.ok (({ g with m_nodes := eraseKey g.m_nodes h } :
          SceneGraph), g.fireOnNodeDelete nd.m_type h) :
            Except Err (SceneGraph × List Event)) =
          Except.ok (g2, evs) := by
        rw [← hdel]
        simp [SceneGraph.deleteNode, hfind]
      injection hs with hpair
      have hg2 : ({ g with m_nodes := eraseKey g.m_nodes h } :
          SceneGraph) = g2 := congrArg Prod.fst hpair
      have hnone : findNode g2.m_nodes h = none := by
        rw [← hg2]
        show findNode (eraseKey g.m_nodes h) h = none
        rw [findNode_eraseKey g.m_nodes h hnd h]
        simp
      simp [SceneGraph.deleteNode, hnone]

/-- C7, witness: replaying create-delete-create from a fresh graph, handle
`0` is dead and handle `1` is live, matching the specification predicate;
and a concrete double delete fails the second time. -/
theorem live_collection_invariant_witness :
    (((SceneGraph.mk0 c1Factory).run
        [GOp.create 0, GOp.delete 0, GOp.create 0]).isLive 0 = true ↔
      specLive [GOp.create 0, GOp.delete 0, GOp.create 0] 0 = true) ∧
    (((SceneGraph.mk0 c1Factory).run
        [GOp.create 0, GOp.delete 0, GOp.create 0]).isLive 1 = true ↔
      specLive [GOp.create 0, GOp.delete 0, GOp.create 0] 1 = true) ∧
    (c1Graph.m_nodes.map Prod.fst).Nodup ∧
    c1Graph.deleteNode 0 = .ok (c1Deleted, []) ∧
    c1Deleted.deleteNode 0 = .error .nodeNotFound :=
  ⟨live_collection_invariant.1 c1Factory
      [GOp.create 0, GOp.delete 0, GOp.create 0] 0,
    live_collection_invariant.1 c1Factory
      [GOp.create 0, GOp.delete 0, GOp.create 0] 1,
    by decide, rfl,
    live_collection_invariant.2 c1Graph c1Deleted 0 [] (by decide) rfl⟩

end Gravity
